import Mathlib

/-!
Verification of the movie ETL pipeline (src/etl.py).

The file shallowly embeds the pipeline: the extractors over decoded HTTP
responses, the pandas transformations, the conflict-aware loader over a
relational store modelled as a finite map per table, and the pagination
loop of `main` as a step function on an explicit loop state.  Python
values that may be `None` are embedded as `Option`; a Python function
whose `except` branch makes it return `None` is embedded as a function
returning `Option` with `none` for that branch.
-/

namespace Etl

/-- A calendar date, the target type of the release-date conversion. -/
structure CalDate where
  year : Nat
  month : Nat
  day : Nat
deriving DecidableEq

/-- Gregorian leap-year test. -/
def isLeap (y : Nat) : Bool :=
  y % 4 == 0 && (y % 100 != 0 || y % 400 == 0)

/-- Number of days of month `m` in year `y`. -/
def daysInMonth (y m : Nat) : Nat :=
  if m = 2 then (if isLeap y then 29 else 28)
  else if m = 4 ∨ m = 6 ∨ m = 9 ∨ m = 11 then 30
  else 31

/-- Whether `y`-`m`-`d` is a real calendar date. -/
def validDate (y m d : Nat) : Bool :=
  1 ≤ m && m ≤ 12 && 1 ≤ d && d ≤ daysInMonth y m

/-- Reads a nonempty all-digit character list as a decimal number. -/
def digitsToNat (l : List Char) : Option Nat :=
  if !l.isEmpty && l.all Char.isDigit then
    some (l.foldl (fun n c => n * 10 + (c.toNat - 48)) 0)
  else none

/-- Splits a character list at every dash. -/
def splitOnDash : List Char → List (List Char)
  | [] => [[]]
  | c :: t =>
    if c = '-' then [] :: splitOnDash t
    else
      match splitOnDash t with
      | [] => [[c]]
      | h :: r => (c :: h) :: r

/-- Parses an ISO `yyyy-mm-dd` string as a calendar date, rejecting
impossible dates. -/
def parseDate (s : String) : Option CalDate :=
  match (splitOnDash s.data).map digitsToNat with
  | [some y, some m, some d] => if validDate y m d then some ⟨y, m, d⟩ else none
  | _ => none

/-- Embeds `pd.to_datetime` on one cell of the `release_date` column.  A
missing value (Python `None`, pandas `NaN`) and the empty string become
the null date `NaT` (inner `none`); any other string must parse as an
ISO calendar date, and an unparseable string makes the conversion raise
(outer `none`). -/
def toDatetime (v : Option String) : Option (Option CalDate) :=
  match v with
  | none => some none
  | some s => if s = "" then some none else (parseDate s).map some

/-- A raw movie record as decoded from the JSON `results` field.  Every
field is optional: a JSON null or a key missing from the object becomes
`none` (pandas turns both into `NaN` in the frame). -/
structure RawMovie where
  adult : Option Bool
  backdrop_path : Option String
  genre_ids : Option (List (Option Int))
  id : Option Int
  original_language : Option String
  original_title : Option String
  overview : Option String
  popularity : Option Rat
  poster_path : Option String
  release_date : Option String
  title : Option String
  video : Option Bool
  vote_average : Option Rat
  vote_count : Option Int
deriving DecidableEq

/-- The non-key columns of the persisted `movies` relation: the raw
record minus the dropped columns (`backdrop_path`, `poster_path`,
`video`, `adult`, `genre_ids`) and minus the key `id`, with
`release_date` converted to a calendar date. -/
structure MovieRow where
  original_language : Option String
  original_title : Option String
  overview : Option String
  popularity : Option Rat
  release_date : Option CalDate
  title : Option String
  vote_average : Option Rat
  vote_count : Option Int
deriving DecidableEq

/-- A raw genre record as decoded from the JSON `genres` field. -/
structure RawGenre where
  id : Option Int
  name : Option String
deriving DecidableEq

/-- Decoded body of a response of the paginated movie endpoint: the
`results` field and the `total_pages` field, each possibly absent. -/
structure MovieBody where
  results : Option (List RawMovie)
  total_pages : Option Nat
deriving DecidableEq

/-- Decoded body of a response of the genre endpoint. -/
structure GenreBody where
  genres : Option (List RawGenre)
deriving DecidableEq

/-- Outcome of one HTTP call of the movie endpoint: either a response
with a status code and a decoded JSON body, or a raised transport or
decoding exception. -/
inductive MovieApi where
  | exc
  | resp (status : Nat) (body : MovieBody)
deriving DecidableEq

/-- Outcome of one HTTP call of the genre endpoint. -/
inductive GenreApi where
  | exc
  | resp (status : Nat) (body : GenreBody)
deriving DecidableEq

/-- Embeds `str(response.status_code).startswith('20')`: strips decimal
digits from the right until at most two remain; the fuel argument (the
number itself) bounds the recursion. -/
def firstTwoDigitsAux : Nat → Nat → Nat
  | 0, m => m
  | f + 1, m => if 100 ≤ m then firstTwoDigitsAux f (m / 10) else m

/-- The success test of both extractors: the decimal representation of
the status code begins with the two digits `2`, `0`. -/
def statusOk (n : Nat) : Bool :=
  firstTwoDigitsAux n n == 20

/-- Embeds `extract_movies`.  On a successful status it returns the
`results` field as decoded (possibly Python `None`) and `total_pages`
defaulted to 1; on any other status it returns `([], 0)`; the `except`
branch returns Python `None` (outer `none`). -/
def extract_movies (o : MovieApi) : Option (Option (List RawMovie) × Nat) :=
  match o with
  | .exc => none
  | .resp status body =>
    if statusOk status then some (body.results, body.total_pages.getD 1)
    else some (some [], 0)

/-- Embeds `extract_genre`.  On a successful status it returns the
`genres` field as decoded (possibly Python `None`, i.e. `none`); on any
other status the empty list; the `except` branch returns Python `None`. -/
def extract_genre (o : GenreApi) : Option (List RawGenre) :=
  match o with
  | .exc => none
  | .resp status body =>
    if statusOk status then body.genres else some []

/-- Python truthiness of a value that is either `None` or a list, as
used by `if movie_results:` and `if genre_results:`. -/
def truthy (o : Option (List α)) : Bool :=
  match o with
  | none => false
  | some l => !l.isEmpty

/-- The record filter of `transform_movies`: the two dropna calls keep a
record only when its `id` and its `genre_ids` are both present. -/
def keepRecord (r : RawMovie) : Bool :=
  r.id.isSome && r.genre_ids.isSome

/-- The join rows one record contributes: the explode of `genre_ids`
into one `(movie_id, genre_id)` row per element, with rows whose genre
identifier is null dropped by the dropna on `genre_id`. -/
def mgRows (r : RawMovie) : List (Int × Int) :=
  match r.id with
  | none => []
  | some i => (r.genre_ids.getD []).filterMap fun g => g.map fun gi => (i, gi)

/-- One record of the primary relation: the key `id` paired with the
kept non-key columns, with `release_date` converted; `none` when the
date conversion raises. -/
def toMovieRow (r : RawMovie) : Option (Int × MovieRow) :=
  match r.id, toDatetime r.release_date with
  | some i, some d =>
    some (i, { original_language := r.original_language,
               original_title := r.original_title,
               overview := r.overview,
               popularity := r.popularity,
               release_date := d,
               title := r.title,
               vote_average := r.vote_average,
               vote_count := r.vote_count })
  | _, _ => none

/-- Converts every surviving record, failing as a whole when any single
date conversion raises (pd.to_datetime converts the whole column in one
call). -/
def rowsOf : List RawMovie → Option (List (Int × MovieRow))
  | [] => some []
  | r :: t =>
    match toMovieRow r, rowsOf t with
    | some p, some ps => some (p :: ps)
    | _, _ => none

/-- Embeds `transform_movies`: drop records lacking `id` or `genre_ids`,
build the exploded join relation, convert the date column (a raise there
is caught and the function returns Python `None`), and drop the excluded
columns.  On an empty input the frame has no columns and the first
dropna raises KeyError, also caught into `none`. -/
def transform_movies (results : List RawMovie) :
    Option (List (Int × MovieRow) × List (Int × Int)) :=
  if results.isEmpty then none
  else
    match rowsOf (results.filter keepRecord) with
    | some movies => some (movies, (results.filter keepRecord).flatMap mgRows)
    | none => none

/-- Embeds `transform_genre`.  The line
`genre_df['id'].dropna(inplace=True)` drops nulls only from a temporary
Series copy of the `id` column and leaves the frame itself unchanged, so
the function returns its input as is; on an empty input the column
lookup raises KeyError, caught into Python `None`. -/
def transform_genre (results : List RawGenre) : Option (List RawGenre) :=
  if results.isEmpty then none else some results

/-- One table of the relational store: a finite map from the conflict
key of the table to the values of its non-key columns.  SQL tables are
unordered and the conflict target is backed by a unique index, so a
finite map is the state a batch of upserts acts on. -/
abbrev Store (K V : Type) :=
  Finmap fun _ : K => V

/-- Effect of inserting one row under `ON CONFLICT (key) DO UPDATE SET
every non-key column = EXCLUDED`: a new key is inserted and an existing
key has all its non-key columns replaced by the incoming values. -/
def upsertUpdate [DecidableEq K] (s : Store K V) (row : K × V) : Store K V :=
  s.insert row.1 row.2

/-- Effect of inserting one row under `ON CONFLICT (key) DO NOTHING`: a
new key is inserted and an existing key is left untouched. -/
def upsertNothing [DecidableEq K] (s : Store K V) (row : K × V) : Store K V :=
  if row.1 ∈ s then s else s.insert row.1 row.2

/-- A batch statement with the DO UPDATE action, row by row in batch
order (later duplicates overwrite earlier ones, last write wins). -/
def loadUpdate [DecidableEq K] (rows : List (K × V)) (s : Store K V) : Store K V :=
  rows.foldl upsertUpdate s

/-- A batch statement with the DO NOTHING action, row by row in batch
order. -/
def loadNothing [DecidableEq K] (rows : List (K × V)) (s : Store K V) : Store K V :=
  rows.foldl upsertNothing s

/-- Embeds `insert_on_conflict_update`: the generated SQL is chosen by
inspecting the table name.  The table `movie_genres` gets `ON CONFLICT
(movie_id, genre_id) DO NOTHING`; every other table gets `ON CONFLICT
(id) DO UPDATE SET` every non-id column to the incoming value.  The
function gives the relational meaning of the executed statement on the
table state. -/
def insert_on_conflict_update [DecidableEq K] (tableName : String)
    (rows : List (K × V)) (s : Store K V) : Store K V :=
  if tableName = "movie_genres" then loadNothing rows s else loadUpdate rows s

/-- Embeds `load`: `to_sql` with `method=insert_on_conflict_update`.
Any error raised during the write is caught and logged (both in `load`
and inside `insert_on_conflict_update`) and the transaction is never
committed, so on failure the table is unchanged and no exception
escapes. -/
def load [DecidableEq K] (fails : Bool) (tableName : String)
    (rows : List (K × V)) (s : Store K V) : Store K V :=
  if fails then s else insert_on_conflict_update tableName rows s

/-- Environment of one run of the pagination loop of `main`: what each
fetch of the movie endpoint returns for a page, and whether the write of
each table fails on a page (connectivity loss, unexpected constraint
violation). -/
structure PageEnv where
  fetch : Nat → MovieApi
  loadFailMovies : Nat → Bool
  loadFailMG : Nat → Bool

/-- The uncaught error that ends a run: unpacking the Python `None`
returned by an extractor or transformer raises a TypeError in `main`,
which nothing catches. -/
inductive RunError where
  | unpackNone
deriving DecidableEq

/-- State of the pagination loop of `main`: the current value of
`pagination`, the pages fetched so far, the two entity tables, and
whether the loop has exited through its `break`. -/
structure LoopState where
  page : Nat
  fetched : List Nat
  moviesTbl : Store Int MovieRow
  mgTbl : Store (Int × Int) Unit
  finished : Bool

/-- One iteration of the `while True` loop of `main`: fetch the current
page, and only when the result is truthy transform, load both relations
and compare `pagination` with `total_pages`; a falsy result repeats the
same page.  Unpacking a Python `None` from the extractor or the
transformer aborts the run. -/
def loopStep (env : PageEnv) (s : LoopState) : Except RunError LoopState :=
  if s.finished then .ok s
  else
    match extract_movies (env.fetch s.page) with
    | none => .error .unpackNone
    | some (movie_results, total_pages) =>
      let s1 : LoopState := { s with fetched := s.fetched ++ [s.page] }
      if truthy movie_results then
        match transform_movies (movie_results.getD []) with
        | none => .error .unpackNone
        | some (movies, movie_genres) =>
          let mt := load (env.loadFailMovies s1.page) "movies" movies s1.moviesTbl
          let gt := load (env.loadFailMG s1.page) "movie_genres"
            (movie_genres.map fun p => (p, ())) s1.mgTbl
          if total_pages ≤ s1.page then
            .ok { s1 with moviesTbl := mt, mgTbl := gt, finished := true }
          else
            .ok { s1 with moviesTbl := mt, mgTbl := gt, page := s1.page + 1 }
      else
        .ok s1

/-- The state in which the loop starts: `pagination = 1`, nothing
fetched, both tables as the store presents them (here empty). -/
def initState : LoopState :=
  { page := 1, fetched := [], moviesTbl := ∅, mgTbl := ∅, finished := false }

/-- The run after `n` iterations of the loop. -/
def loopRun (env : PageEnv) : Nat → Except RunError LoopState
  | 0 => .ok initState
  | n + 1 => (loopRun env n).bind (loopStep env)

/-- The pagination loop terminates: some iteration count reaches the
`break`. -/
def Terminates (env : PageEnv) : Prop :=
  ∃ n s, loopRun env n = .ok s ∧ s.finished = true

/-- The value of the last row of a batch carrying key `k`, if any. -/
def lastWrite [DecidableEq K] (k : K) : List (K × V) → Option V
  | [] => none
  | kv :: t =>
    match lastWrite k t with
    | some v => some v
    | none => if kv.1 = k then some kv.2 else none

/-- The value of the first row of a batch carrying key `k`, if any. -/
def firstWrite [DecidableEq K] (k : K) : List (K × V) → Option V
  | [] => none
  | kv :: t => if kv.1 = k then some kv.2 else firstWrite k t

/-- The spec-side reading of the success test: the decimal numeral of
`n` has `2`, `0` as its first two digits, i.e. `n` lies in
`[20 * 10 ^ k, 21 * 10 ^ k)` for some `k`. -/
def FirstTwo20 (n : Nat) : Prop :=
  ∃ k, 20 * 10 ^ k ≤ n ∧ n < 21 * 10 ^ k

/-- A well-formed movie record: identifier 1, one genre reference, a
parseable release date. -/
def sampleMovie : RawMovie :=
  { adult := some false, backdrop_path := none,
    genre_ids := some [some 2], id := some 1,
    original_language := some "en", original_title := some "Title",
    overview := some "Plot", popularity := some 3, poster_path := none,
    release_date := some "2020-01-15", title := some "Title",
    video := some false, vote_average := some 7, vote_count := some 11 }

/-- A movie record with the genre-reference list `[1, 2, 2, null]` of
the flattening property and a parseable release date. -/
def flatMovie : RawMovie :=
  { sampleMovie with
    id := some 7,
    genre_ids := some [some 1, some 2, some 2, none] }

/-- The same record with an unparseable release-date string. -/
def badDateMovie : RawMovie :=
  { flatMovie with release_date := some "not-a-date" }

/-- A movie record whose genre-reference list is missing. -/
def noGidMovie : RawMovie :=
  { sampleMovie with id := some 5, genre_ids := none }

/-- A genre record whose identifier is null. -/
def nullIdGenre : RawGenre :=
  { id := none, name := some "Action" }

/-- An environment in which every page is fetched successfully, carries
one well-formed record and reports three total pages. -/
def envPages3 : PageEnv :=
  { fetch := fun _ => .resp 200 { results := some [sampleMovie], total_pages := some 3 },
    loadFailMovies := fun _ => false, loadFailMG := fun _ => false }

/-- An environment in which page 1 is fetched successfully but its body
has no `total_pages` field. -/
def envNoTotal : PageEnv :=
  { fetch := fun _ => .resp 200 { results := some [sampleMovie], total_pages := none },
    loadFailMovies := fun _ => false, loadFailMG := fun _ => false }

/-- An environment in which every fetch gets a non-success status, so
every page yields the empty record list. -/
def envEmptyPages : PageEnv :=
  { fetch := fun _ => .resp 404 { results := none, total_pages := none },
    loadFailMovies := fun _ => false, loadFailMG := fun _ => false }

/-- An environment in which every page carries one record whose
release date does not parse. -/
def envBadDate : PageEnv :=
  { fetch := fun _ => .resp 200 { results := some [badDateMovie], total_pages := some 3 },
    loadFailMovies := fun _ => false, loadFailMG := fun _ => false }

/-- An environment in which every fetch raises a transport exception. -/
def envExc : PageEnv :=
  { fetch := fun _ => .exc,
    loadFailMovies := fun _ => false, loadFailMG := fun _ => false }

/-- An environment whose responses are successful but lack the
`results` field. -/
def envNoField : PageEnv :=
  { fetch := fun _ => .resp 200 { results := none, total_pages := some 3 },
    loadFailMovies := fun _ => false, loadFailMG := fun _ => false }

/-- An environment whose responses carry an empty `results` field. -/
def envEmptyField : PageEnv :=
  { fetch := fun _ => .resp 200 { results := some [], total_pages := some 3 },
    loadFailMovies := fun _ => false, loadFailMG := fun _ => false }

/-- A one-row genres table: id 5 with non-key data 0. -/
def genreTbl0 : Store Int Nat :=
  (∅ : Store Int Nat).insert 5 0

/-- A one-row movie_genres table holding the pair (1, 2). -/
def mgTbl0 : Store (Int × Int) Unit :=
  (∅ : Store (Int × Int) Unit).insert (1, 2) ()

/-- The non-key columns of `sampleMovie` after transformation. -/
def sampleRow : MovieRow :=
  { original_language := some "en", original_title := some "Title",
    overview := some "Plot", popularity := some 3,
    release_date := some ⟨2020, 1, 15⟩, title := some "Title",
    vote_average := some 7, vote_count := some 11 }

section StoreLemmas

variable {K V : Type} [DecidableEq K]

theorem lookup_upsertUpdate (s : Store K V) (kv : K × V) (k : K) :
    (upsertUpdate s kv).lookup k = if kv.1 = k then some kv.2 else s.lookup k := by
  unfold upsertUpdate
  by_cases h : kv.1 = k
  · subst h
    simp [Finmap.lookup_insert]
  · rw [if_neg h, Finmap.lookup_insert_of_ne _ (Ne.symm h)]

theorem lookup_loadUpdate_none (rows : List (K × V)) (s : Store K V) (k : K)
    (h : lastWrite k rows = none) :
    (loadUpdate rows s).lookup k = s.lookup k := by
  induction rows generalizing s with
  | nil => rfl
  | cons kv t ih =>
    have h1 : lastWrite k t = none := by
      unfold lastWrite at h
      cases h1 : lastWrite k t with
      | some v => rw [h1] at h; exact absurd h (by simp)
      | none => rfl
    have h2 : kv.1 ≠ k := by
      intro he
      unfold lastWrite at h
      rw [h1, if_pos he] at h
      exact absurd h (by simp)
    show (loadUpdate t (upsertUpdate s kv)).lookup k = s.lookup k
    rw [ih _ h1, lookup_upsertUpdate, if_neg h2]

theorem lookup_loadUpdate_some (rows : List (K × V)) (s : Store K V) (k : K) (v : V)
    (h : lastWrite k rows = some v) :
    (loadUpdate rows s).lookup k = some v := by
  induction rows generalizing s with
  | nil => exact absurd h (by simp [lastWrite])
  | cons kv t ih =>
    show (loadUpdate t (upsertUpdate s kv)).lookup k = some v
    cases h1 : lastWrite k t with
    | some w =>
      have hw : w = v := by
        unfold lastWrite at h
        rw [h1] at h
        exact Option.some.inj h
      rw [hw] at h1
      exact ih _ h1
    | none =>
      have h2 : kv.1 = k ∧ kv.2 = v := by
        unfold lastWrite at h
        rw [h1] at h
        by_cases he : kv.1 = k
        · rw [if_pos he] at h
          exact ⟨he, Option.some.inj h⟩
        · rw [if_neg he] at h
          exact absurd h (by simp)
      rw [lookup_loadUpdate_none t _ k h1, lookup_upsertUpdate, if_pos h2.1, h2.2]

theorem lookup_loadNothing_of_some (rows : List (K × V)) (s : Store K V) (k : K) (v : V)
    (h : s.lookup k = some v) :
    (loadNothing rows s).lookup k = some v := by
  induction rows generalizing s with
  | nil => exact h
  | cons kv t ih =>
    show (loadNothing t (upsertNothing s kv)).lookup k = some v
    apply ih
    unfold upsertNothing
    split
    · exact h
    · rename_i hmem
      by_cases he : k = kv.1
      · exact absurd (he ▸ Finmap.mem_of_lookup_eq_some h) hmem
      · rw [Finmap.lookup_insert_of_ne _ he]
        exact h

theorem lookup_loadNothing_of_none (rows : List (K × V)) (s : Store K V) (k : K)
    (h : s.lookup k = none) :
    (loadNothing rows s).lookup k = firstWrite k rows := by
  induction rows generalizing s with
  | nil => exact h
  | cons kv t ih =>
    show (loadNothing t (upsertNothing s kv)).lookup k = firstWrite k (kv :: t)
    unfold firstWrite
    by_cases he : kv.1 = k
    · rw [if_pos he]
      have hnm : kv.1 ∉ s := he ▸ Finmap.lookup_eq_none.mp h
      have : (upsertNothing s kv).lookup k = some kv.2 := by
        unfold upsertNothing
        rw [if_neg hnm, ← he, Finmap.lookup_insert]
      exact lookup_loadNothing_of_some t _ k kv.2 this
    · rw [if_neg he]
      apply ih
      unfold upsertNothing
      split
      · exact h
      · rw [Finmap.lookup_insert_of_ne _ fun hh => he hh.symm]
        exact h

theorem loadUpdate_idem (rows : List (K × V)) (s : Store K V) :
    loadUpdate rows (loadUpdate rows s) = loadUpdate rows s := by
  apply Finmap.ext_lookup
  intro k
  cases h : lastWrite (V := V) k rows with
  | some v => rw [lookup_loadUpdate_some _ _ _ _ h, lookup_loadUpdate_some _ _ _ _ h]
  | none => rw [lookup_loadUpdate_none _ _ _ h, lookup_loadUpdate_none _ _ _ h]

theorem loadNothing_idem (rows : List (K × V)) (s : Store K V) :
    loadNothing rows (loadNothing rows s) = loadNothing rows s := by
  apply Finmap.ext_lookup
  intro k
  cases h : (loadNothing rows s).lookup k with
  | some v => exact lookup_loadNothing_of_some _ _ _ _ h
  | none =>
    have hfw : firstWrite (V := V) k rows = none := by
      cases hs : s.lookup k with
      | some v =>
        have hv := lookup_loadNothing_of_some rows s k v hs
        rw [hv] at h
        exact absurd h (by simp)
      | none =>
        have hv := lookup_loadNothing_of_none rows s k hs
        rw [hv] at h
        exact h
    rw [lookup_loadNothing_of_none rows _ k h]
    exact hfw

end StoreLemmas

theorem firstTwoDigitsAux_spec :
    ∀ f m, m ≤ f → (firstTwoDigitsAux f m = 20 ↔ FirstTwo20 m) := by
  intro f
  induction f with
  | zero =>
    intro m hm
    have : m = 0 := Nat.le_zero.mp hm
    subst this
    constructor
    · intro h
      exact absurd h (by simp [firstTwoDigitsAux])
    · rintro ⟨k, h1, _⟩
      have : 0 < 20 * 10 ^ k := by positivity
      omega
  | succ f ih =>
    intro m hm
    by_cases h100 : 100 ≤ m
    · have hlt : m / 10 < m := Nat.div_lt_self (by omega) (by omega)
      have hle : m / 10 ≤ f := by omega
      rw [show firstTwoDigitsAux (f + 1) m = firstTwoDigitsAux f (m / 10) from by
        simp [firstTwoDigitsAux, h100]]
      rw [ih (m / 10) hle]
      constructor
      · rintro ⟨k, h1, h2⟩
        refine ⟨k + 1, ?_, ?_⟩
        · have := (Nat.le_div_iff_mul_le (by omega)).mp h1
          calc 20 * 10 ^ (k + 1) = 20 * 10 ^ k * 10 := by ring
          _ ≤ m := this
        · have := (Nat.div_lt_iff_lt_mul (by omega)).mp h2
          calc m < 21 * 10 ^ k * 10 := this
          _ = 21 * 10 ^ (k + 1) := by ring
      · rintro ⟨k, h1, h2⟩
        match k with
        | 0 => simp at h1 h2; omega
        | j + 1 =>
          refine ⟨j, ?_, ?_⟩
          · rw [Nat.le_div_iff_mul_le (by omega)]
            calc 20 * 10 ^ j * 10 = 20 * 10 ^ (j + 1) := by ring
            _ ≤ m := h1
          · rw [Nat.div_lt_iff_lt_mul (by omega)]
            calc m < 21 * 10 ^ (j + 1) := h2
            _ = 21 * 10 ^ j * 10 := by ring
    · rw [show firstTwoDigitsAux (f + 1) m = m from by
        simp [firstTwoDigitsAux, h100]]
      constructor
      · intro h
        exact ⟨0, by omega, by omega⟩
      · rintro ⟨k, h1, h2⟩
        match k with
        | 0 => simp at h1 h2; omega
        | j + 1 =>
          have h10 : 10 ≤ 10 ^ (j + 1) := by
            calc 10 = 10 ^ 1 := (pow_one 10).symm
            _ ≤ 10 ^ (j + 1) := Nat.pow_le_pow_right (by omega) (by omega)
          have : 200 ≤ m := le_trans (by nlinarith) h1
          omega

/-- The success test of the extractors holds exactly when the first two
decimal digits of the status code are 2 and 0. -/
theorem statusOk_iff (n : Nat) : statusOk n = true ↔ FirstTwo20 n := by
  unfold statusOk
  rw [beq_iff_eq]
  exact firstTwoDigitsAux_spec n n le_rfl

theorem loopStep_finished (env : PageEnv) (s : LoopState) (h : s.finished = true) :
    loopStep env s = .ok s := by
  unfold loopStep
  rw [h]
  simp

theorem loopStep_crash_exc (env : PageEnv) (s : LoopState) (hfin : s.finished = false)
    (he : extract_movies (env.fetch s.page) = none) :
    loopStep env s = .error .unpackNone := by
  unfold loopStep
  rw [hfin, he]
  simp

theorem loopStep_empty (env : PageEnv) (s : LoopState) (res : Option (List RawMovie))
    (total : Nat) (hfin : s.finished = false)
    (he : extract_movies (env.fetch s.page) = some (res, total))
    (ht : truthy res = false) :
    loopStep env s = .ok { s with fetched := s.fetched ++ [s.page] } := by
  unfold loopStep
  rw [hfin, he]
  simp [ht]

theorem loopStep_crash_transform (env : PageEnv) (s : LoopState) (l : List RawMovie)
    (total : Nat) (hfin : s.finished = false)
    (he : extract_movies (env.fetch s.page) = some (some l, total))
    (hne : l.isEmpty = false) (ht : transform_movies l = none) :
    loopStep env s = .error .unpackNone := by
  unfold loopStep
  rw [hfin, he]
  simp [truthy, hne, ht]

theorem loopStep_progress (env : PageEnv) (s : LoopState) (l : List RawMovie)
    (total : Nat) (mv : List (Int × MovieRow)) (mg : List (Int × Int))
    (hfin : s.finished = false)
    (he : extract_movies (env.fetch s.page) = some (some l, total))
    (hne : l.isEmpty = false) (ht : transform_movies l = some (mv, mg)) :
    loopStep env s = .ok
      { page := if total ≤ s.page then s.page else s.page + 1,
        fetched := s.fetched ++ [s.page],
        moviesTbl := load (env.loadFailMovies s.page) "movies" mv s.moviesTbl,
        mgTbl := load (env.loadFailMG s.page) "movie_genres"
          (mg.map fun p => (p, ())) s.mgTbl,
        finished := decide (total ≤ s.page) } := by
  unfold loopStep
  rw [hfin, he]
  by_cases htp : total ≤ s.page
  · simp [truthy, hne, ht, htp]
  · simp [truthy, hne, ht, htp]

theorem loopRun_stable (env : PageEnv) (n : Nat) (s : LoopState)
    (h : loopRun env n = .ok s) (hf : s.finished = true) :
    ∀ k, loopRun env (n + k) = .ok s := by
  intro k
  induction k with
  | zero => exact h
  | succ k ih =>
    rw [← Nat.add_assoc]
    show (loopRun env (n + k)).bind (loopStep env) = .ok s
    rw [ih]
    show loopStep env s = .ok s
    exact loopStep_finished env s hf

theorem rowsOf_mem (l : List RawMovie) (out : List (Int × MovieRow))
    (h : rowsOf l = some out) :
    ∀ p ∈ out, ∃ r ∈ l, toMovieRow r = some p := by
  induction l generalizing out with
  | nil =>
    have : out = [] := by
      unfold rowsOf at h
      exact (Option.some.inj h).symm
    subst this
    intro p hp
    exact absurd hp (by simp)
  | cons r t ih =>
    unfold rowsOf at h
    cases hr : toMovieRow r with
    | none => rw [hr] at h; exact absurd h (by simp)
    | some p0 =>
      rw [hr] at h
      cases hts : rowsOf t with
      | none => rw [hts] at h; exact absurd h (by simp)
      | some ps =>
        rw [hts] at h
        have : p0 :: ps = out := Option.some.inj h
        subst this
        intro p hp
        rcases List.mem_cons.mp hp with hph | hpt
        · exact ⟨r, List.mem_cons_self r t, hph ▸ hr⟩
        · obtain ⟨r2, hr2, hr2p⟩ := ih ps hts p hpt
          exact ⟨r2, List.mem_cons_of_mem r hr2, hr2p⟩

theorem rowsOf_none_of_mem (l : List RawMovie) (r : RawMovie)
    (hr : r ∈ l) (h : toMovieRow r = none) : rowsOf l = none := by
  induction l with
  | nil => exact absurd hr (by simp)
  | cons a t ih =>
    rcases List.mem_cons.mp hr with hra | hrt
    · unfold rowsOf
      rw [← hra, h]
    · unfold rowsOf
      rw [ih hrt]
      cases toMovieRow a <;> rfl

theorem toMovieRow_id (r : RawMovie) (i : Int) (row : MovieRow)
    (h : toMovieRow r = some (i, row)) : r.id = some i := by
  unfold toMovieRow at h
  cases hid : r.id with
  | none => rw [hid] at h; exact absurd h (by simp)
  | some j =>
    rw [hid] at h
    cases hd : toDatetime r.release_date with
    | none => rw [hd] at h; exact absurd h (by simp)
    | some d =>
      rw [hd] at h
      have := Option.some.inj h
      rw [show j = i from congrArg Prod.fst this]

theorem lastWrite_mem {K V : Type} [DecidableEq K] (k : K) (v : V)
    (rows : List (K × V)) (h : lastWrite k rows = some v) : (k, v) ∈ rows := by
  induction rows with
  | nil => exact absurd h (by simp [lastWrite])
  | cons kv t ih =>
    unfold lastWrite at h
    cases ht : lastWrite k t with
    | some w =>
      rw [ht] at h
      exact List.mem_cons_of_mem kv (ih (ht.trans (congrArg _ (Option.some.inj h))))
    | none =>
      rw [ht] at h
      by_cases he : kv.1 = k
      · rw [if_pos he] at h
        have : kv = (k, v) := by
          rw [Prod.ext_iff]
          exact ⟨he, Option.some.inj h⟩
        rw [← this]
        exact List.mem_cons_self kv t
      · rw [if_neg he] at h
        exact absurd h (by simp)

theorem filter_keep_nil (l : List RawMovie)
    (h : ∀ r ∈ l, keepRecord r = false) : l.filter keepRecord = [] := by
  induction l with
  | nil => rfl
  | cons r t ih =>
    rw [List.filter_cons, h r (List.mem_cons_self r t)]
    exact ih fun x hx => h x (List.mem_cons_of_mem r hx)

/-- C1: loading the same batch twice produces exactly the same table
state (hence the same row count and content) as loading it once, for
every table name — the DO UPDATE action of the id-keyed tables `genres`
and `movies` as well as the DO NOTHING action of `movie_genres`. -/
theorem c1_load_idempotent {K V : Type} [DecidableEq K] (tableName : String)
    (rows : List (K × V)) (s : Store K V) :
    insert_on_conflict_update tableName rows
        (insert_on_conflict_update tableName rows s)
      = insert_on_conflict_update tableName rows s := by
  unfold insert_on_conflict_update
  split
  · exact loadNothing_idem rows s
  · exact loadUpdate_idem rows s

/-- C3: the conflict rule is selected by table name.  For `genres` and
`movies`, keyed by the single identifier `id`, a batch row whose `id` is
already present replaces every non-key column with the incoming value
and adds no row; for `movie_genres`, keyed by the composite
`(movie_id, genre_id)`, re-sending an existing pair leaves the table
exactly unchanged — no error, no extra row. -/
theorem c3_conflict_by_table {V : Type} (tn : String)
    (htn : tn = "genres" ∨ tn = "movies")
    (s : Store Int V) (i : Int) (v w : V) (hw : s.lookup i = some w)
    (t : Store (Int × Int) Unit) (p : Int × Int) (hp : p ∈ t) :
    ((insert_on_conflict_update tn [(i, v)] s).lookup i = some v
      ∧ (∀ j, j ≠ i → (insert_on_conflict_update tn [(i, v)] s).lookup j = s.lookup j)
      ∧ (∀ j, j ∈ insert_on_conflict_update tn [(i, v)] s ↔ j ∈ s))
    ∧ insert_on_conflict_update "movie_genres" [(p, ())] t = t := by
  have htn0 : tn ≠ "movie_genres" := by
    rcases htn with h | h <;> subst h <;> decide
  have hup : insert_on_conflict_update tn [(i, v)] s = s.insert i v := by
    unfold insert_on_conflict_update
    rw [if_neg htn0]
    rfl
  refine ⟨⟨?_, ?_, ?_⟩, ?_⟩
  · rw [hup, Finmap.lookup_insert]
  · intro j hj
    rw [hup, Finmap.lookup_insert_of_ne s hj]
  · intro j
    rw [hup, Finmap.mem_insert]
    constructor
    · rintro (hji | hjs)
      · exact hji ▸ Finmap.mem_of_lookup_eq_some hw
      · exact hjs
    · exact Or.inr
  · show loadNothing [(p, ())] t = t
    show upsertNothing t (p, ()) = t
    unfold upsertNothing
    rw [if_pos hp]

theorem c3_witness :
    ((insert_on_conflict_update "genres" [((5 : Int), (1 : Nat))] genreTbl0).lookup 5
        = some 1
      ∧ (∀ j, j ≠ (5 : Int) →
          (insert_on_conflict_update "genres" [((5 : Int), (1 : Nat))] genreTbl0).lookup j
            = genreTbl0.lookup j)
      ∧ (∀ j, j ∈ insert_on_conflict_update "genres" [((5 : Int), (1 : Nat))] genreTbl0
          ↔ j ∈ genreTbl0))
    ∧ insert_on_conflict_update "movie_genres" [(((1 : Int), (2 : Int)), ())] mgTbl0
        = mgTbl0 :=
  c3_conflict_by_table "genres" (Or.inl rfl) genreTbl0 5 1 0 rfl mgTbl0 (1, 2)
    (Finmap.mem_insert.mpr (Or.inl rfl))

/-- C5: the extractors treat a response as successful exactly when the
first two decimal digits of its status code are 2, 0; a successful
response yields the named JSON field (with `total_pages` defaulted to 1
when absent), and any non-success status yields an empty result, with
the paginated call yielding `([], 0)`. -/
theorem c5_extract_success (status : Nat) (gb : GenreBody) (mb : MovieBody) :
    (statusOk status = true ↔ FirstTwo20 status)
    ∧ (FirstTwo20 status →
        extract_genre (.resp status gb) = gb.genres
        ∧ extract_movies (.resp status mb) = some (mb.results, mb.total_pages.getD 1))
    ∧ (¬ FirstTwo20 status →
        extract_genre (.resp status gb) = some []
        ∧ extract_movies (.resp status mb) = some (some [], 0)) := by
  refine ⟨statusOk_iff status, fun h => ?_, fun h => ?_⟩
  · have hb : statusOk status = true := (statusOk_iff status).mpr h
    exact ⟨by simp [extract_genre, hb], by simp [extract_movies, hb]⟩
  · have hb : statusOk status = false := by
      cases hs : statusOk status
      · rfl
      · exact absurd ((statusOk_iff status).mp hs) h
    exact ⟨by simp [extract_genre, hb], by simp [extract_movies, hb]⟩

theorem loopRun_succ_of (env : PageEnv) (n : Nat) (s : LoopState)
    (h : loopRun env n = .ok s) : loopRun env (n + 1) = loopStep env s := by
  show (loopRun env n).bind (loopStep env) = loopStep env s
  rw [h]
  rfl

theorem loopRun_progress_succ (env : PageEnv) (n : Nat) (s : LoopState)
    (hrun : loopRun env n = .ok s) (hfin : s.finished = false)
    (l : List RawMovie) (total : Nat) (mv : List (Int × MovieRow))
    (mg : List (Int × Int))
    (he : extract_movies (env.fetch s.page) = some (some l, total))
    (hne : l.isEmpty = false) (ht : transform_movies l = some (mv, mg)) :
    ∃ s2, loopRun env (n + 1) = .ok s2
      ∧ s2.page = (if total ≤ s.page then s.page else s.page + 1)
      ∧ s2.fetched = s.fetched ++ [s.page]
      ∧ s2.finished = decide (total ≤ s.page) := by
  refine ⟨{ page := if total ≤ s.page then s.page else s.page + 1,
            fetched := s.fetched ++ [s.page],
            moviesTbl := load (env.loadFailMovies s.page) "movies" mv s.moviesTbl,
            mgTbl := load (env.loadFailMG s.page) "movie_genres"
              (mg.map fun p => (p, ())) s.mgTbl,
            finished := decide (total ≤ s.page) }, ?_, rfl, rfl, rfl⟩
  rw [loopRun_succ_of env n s hrun]
  exact loopStep_progress env s l total mv mg hfin he hne ht

theorem loopRun_envEmptyPages (n : Nat) :
    loopRun envEmptyPages n = .ok { initState with fetched := List.replicate n 1 } := by
  induction n with
  | zero => rfl
  | succ n ih =>
    rw [loopRun_succ_of envEmptyPages n _ ih]
    rw [loopStep_empty envEmptyPages { initState with fetched := List.replicate n 1 }
      (some []) 0 rfl rfl rfl]
    simp [initState, List.replicate_succ']

/-- C2 counterexample: in the environment in which every fetch comes
back with a non-success status, every page yields no records and the
loop never terminates — it refetches page 1 forever instead of stopping,
so the claim that the loop terminates on empty pages fails. -/
theorem c2_counterexample : ¬ Terminates envEmptyPages := by
  rintro ⟨n, s, hrun, hfin⟩
  rw [loopRun_envEmptyPages n] at hrun
  have hs := Except.ok.inj hrun
  rw [← hs] at hfin
  exact absurd hfin (by simp [initState])

/-- C2 as amended: when every fetched page yields records that
transform successfully and reports `total_pages = 3`, the loop fetches
exactly pages 1, 2, 3 and stops; when page 1 yields records, transforms
successfully and its body lacks `total_pages` (defaulted to 1), the loop
stops after fetching page 1.  (On a page with no records the loop does
not terminate; see the counterexample.) -/
theorem c2_pagination_termination (env3 env1 : PageEnv)
    (h3 : ∀ p, 1 ≤ p → p ≤ 3 → ∃ l mv mg,
      extract_movies (env3.fetch p) = some (some l, 3) ∧ l.isEmpty = false
        ∧ transform_movies l = some (mv, mg))
    (st : Nat) (body : MovieBody) (l1 : List RawMovie)
    (mv1 : List (Int × MovieRow)) (mg1 : List (Int × Int))
    (hf : env1.fetch 1 = .resp st body) (hok : statusOk st = true)
    (hres : body.results = some l1) (htp : body.total_pages = none)
    (hne : l1.isEmpty = false) (htr : transform_movies l1 = some (mv1, mg1)) :
    (∃ s, s.finished = true ∧ s.fetched = [1, 2, 3]
      ∧ ∀ k, loopRun env3 (3 + k) = .ok s)
    ∧ (∃ s, s.finished = true ∧ s.fetched = [1]
      ∧ ∀ k, loopRun env1 (1 + k) = .ok s) := by
  constructor
  · obtain ⟨la, mva, mga, hea, hnea, hta⟩ := h3 1 (by omega) (by omega)
    obtain ⟨lb, mvb, mgb, heb, hneb, htb⟩ := h3 2 (by omega) (by omega)
    obtain ⟨lc, mvc, mgc, hec, hnec, htc⟩ := h3 3 (by omega) (by omega)
    obtain ⟨s1, r1, hp1, hq1, hn1⟩ :=
      loopRun_progress_succ env3 0 initState rfl rfl la 3 mva mga hea hnea hta
    simp [initState] at hp1 hq1 hn1
    obtain ⟨s2, r2, hp2, hq2, hn2⟩ :=
      loopRun_progress_succ env3 1 s1 r1 hn1 lb 3 mvb mgb (by rw [hp1]; exact heb)
        hneb htb
    rw [hp1] at hp2 hn2
    rw [hp1, hq1] at hq2
    simp at hp2 hn2
    obtain ⟨s3, r3, hp3, hq3, hn3⟩ :=
      loopRun_progress_succ env3 2 s2 r2 hn2 lc 3 mvc mgc (by rw [hp2]; exact hec)
        hnec htc
    rw [hp2] at hn3
    rw [hp2, hq2] at hq3
    simp at hn3
    exact ⟨s3, hn3, hq3, fun k => loopRun_stable env3 3 s3 r3 hn3 k⟩
  · have he1 : extract_movies (env1.fetch initState.page) = some (some l1, 1) := by
      rw [show initState.page = 1 from rfl, hf]
      simp [extract_movies, hok, hres, htp]
    obtain ⟨s1, r1, hp1, hq1, hn1⟩ :=
      loopRun_progress_succ env1 0 initState rfl rfl l1 1 mv1 mg1 he1 hne htr
    simp [initState] at hq1 hn1
    exact ⟨s1, hn1, hq1, fun k => loopRun_stable env1 1 s1 r1 hn1 k⟩

theorem c2_witness :
    (∃ s, s.finished = true ∧ s.fetched = [1, 2, 3]
      ∧ ∀ k, loopRun envPages3 (3 + k) = .ok s)
    ∧ (∃ s, s.finished = true ∧ s.fetched = [1]
      ∧ ∀ k, loopRun envNoTotal (1 + k) = .ok s) :=
  c2_pagination_termination envPages3 envNoTotal
    (fun _ _ _ => ⟨[sampleMovie], [(1, sampleRow)], [(1, 2)], rfl, rfl, rfl⟩)
    200 { results := some [sampleMovie], total_pages := none } [sampleMovie]
    [(1, sampleRow)] [(1, 2)] rfl rfl rfl rfl rfl rfl

/-- C4 counterexample: on the environment whose page-1 fetch raises a
transport exception inside the extractor, the exception is caught and
logged there, but `main` then unpacks the returned Python `None` and the
run aborts with an uncaught TypeError after a single iteration — the
error does not stay at page granularity and the run does not proceed to
the next page. -/
theorem c4_counterexample : loopRun envExc 1 = .error .unpackNone := rfl

/-- C4 as amended: a failing load is caught and leaves the table
unchanged without unwinding the loop, and a page with a falsy extraction
result does not crash the loop but is refetched (the loop does not
advance to the next page); however a transformation failure on a page,
or an extractor exception, makes `main` unpack a Python `None` and
aborts the whole run, not just that page. -/
theorem c4_error_containment :
    (∀ env s l total, s.finished = false →
      extract_movies (env.fetch s.page) = some (some l, total) →
      l.isEmpty = false → transform_movies l = none →
      loopStep env s = .error .unpackNone)
    ∧ (∀ env s, s.finished = false →
      extract_movies (env.fetch s.page) = none →
      loopStep env s = .error .unpackNone)
    ∧ (∀ env s l total mv mg, s.finished = false →
      extract_movies (env.fetch s.page) = some (some l, total) →
      l.isEmpty = false → transform_movies l = some (mv, mg) →
      ∃ s2, loopStep env s = .ok s2
        ∧ (env.loadFailMovies s.page = true → s2.moviesTbl = s.moviesTbl)
        ∧ (env.loadFailMG s.page = true → s2.mgTbl = s.mgTbl))
    ∧ (∀ env s res total, s.finished = false →
      extract_movies (env.fetch s.page) = some (res, total) → truthy res = false →
      loopStep env s = .ok { s with fetched := s.fetched ++ [s.page] }) := by
  refine ⟨?_, ?_, ?_, ?_⟩
  · intro env s l total hfin he hne ht
    exact loopStep_crash_transform env s l total hfin he hne ht
  · intro env s hfin he
    exact loopStep_crash_exc env s hfin he
  · intro env s l total mv mg hfin he hne ht
    refine ⟨_, loopStep_progress env s l total mv mg hfin he hne ht, ?_, ?_⟩
    · intro hfail
      show load (env.loadFailMovies s.page) "movies" mv s.moviesTbl = s.moviesTbl
      rw [hfail]
      rfl
    · intro hfail
      show load (env.loadFailMG s.page) "movie_genres"
        (mg.map fun p => (p, ())) s.mgTbl = s.mgTbl
      rw [hfail]
      rfl
  · intro env s res total hfin he ht
    exact loopStep_empty env s res total hfin he ht

/-- C10: on a successful response whose body lacks the named data
field, `extract_movies` returns Python `None` in place of the record
list (paired with the defaulted `total_pages`), `extract_genre` returns
Python `None`, and the truthiness test of the orchestrator makes such a
page take exactly the same loop transition as a page whose field decoded
to the empty list. -/
theorem c10_missing_field (st : Nat) (mb : MovieBody) (gb : GenreBody)
    (env env2 : PageEnv) (s : LoopState)
    (hok : statusOk st = true) (hr : mb.results = none) (hg : gb.genres = none)
    (hf : env.fetch s.page = .resp st mb)
    (hf2 : env2.fetch s.page = .resp st { mb with results := some [] }) :
    extract_movies (.resp st mb) = some (none, mb.total_pages.getD 1)
    ∧ extract_genre (.resp st gb) = none
    ∧ truthy (none : Option (List RawMovie)) = truthy (some ([] : List RawMovie))
    ∧ loopStep env s = loopStep env2 s := by
  refine ⟨by simp [extract_movies, hok, hr], by simp [extract_genre, hok, hg], rfl, ?_⟩
  by_cases hfin : s.finished = true
  · rw [loopStep_finished env s hfin, loopStep_finished env2 s hfin]
  · have hfin0 : s.finished = false := by
      cases h : s.finished
      · rfl
      · exact absurd h hfin
    rw [loopStep_empty env s none (mb.total_pages.getD 1) hfin0
        (by rw [hf]; simp [extract_movies, hok, hr]) rfl,
      loopStep_empty env2 s (some []) (mb.total_pages.getD 1) hfin0
        (by rw [hf2]; simp [extract_movies, hok]) rfl]

/-- C6 counterexample: the record with identifier 7 and genre-reference
list `[1, 2, 2, null]` whose release date is the unparseable string
`not-a-date` makes the whole transformation return Python `None`, and
the run aborts before persisting anything — so no join row of this
record is ever persisted, against the claim. -/
theorem c6_counterexample :
    badDateMovie.id = some 7
    ∧ badDateMovie.genre_ids = some [some 1, some 2, some 2, none]
    ∧ transform_movies [badDateMovie] = none
    ∧ loopRun envBadDate 1 = .error .unpackNone :=
  ⟨rfl, rfl, rfl, rfl⟩

/-- C6 as amended: for every record with identifier `m` and
genre-reference list `[1, 2, 2, null]` whose release date converts
without raising (absent, empty or parseable), the transformation emits
the join rows `(m, 1), (m, 2), (m, 2)` — the null dropped before the
write — and loading them into a table not yet holding them persists
exactly `(m, 1)` and `(m, 2)`, each once, the duplicate collapsing under
DO NOTHING. -/
theorem c6_flattening (r : RawMovie) (m : Int)
    (hid : r.id = some m)
    (hg : r.genre_ids = some [some 1, some 2, some 2, none])
    (hd : (toDatetime r.release_date).isSome = true) :
    (∃ row, transform_movies [r] = some ([(m, row)], [(m, 1), (m, 2), (m, 2)]))
    ∧ (insert_on_conflict_update "movie_genres"
        ([(m, 1), (m, 2), (m, 2)].map fun p => (p, ()))
        (∅ : Store (Int × Int) Unit)).lookup (m, 1) = some ()
    ∧ (insert_on_conflict_update "movie_genres"
        ([(m, 1), (m, 2), (m, 2)].map fun p => (p, ()))
        (∅ : Store (Int × Int) Unit)).lookup (m, 2) = some ()
    ∧ ∀ p, p ∈ insert_on_conflict_update "movie_genres"
        ([(m, 1), (m, 2), (m, 2)].map fun p => (p, ()))
        (∅ : Store (Int × Int) Unit) → p = (m, 1) ∨ p = (m, 2) := by
  obtain ⟨dd, hdd⟩ := Option.isSome_iff_exists.mp hd
  have hT : insert_on_conflict_update "movie_genres"
      ([(m, 1), (m, 2), (m, 2)].map fun p => (p, ())) (∅ : Store (Int × Int) Unit)
      = ((∅ : Store (Int × Int) Unit).insert (m, 1) ()).insert (m, 2) () := by
    show loadNothing [((m, 1), ()), ((m, 2), ()), ((m, 2), ())] ∅ = _
    show upsertNothing (upsertNothing (upsertNothing ∅ ((m, 1), ())) ((m, 2), ()))
      ((m, 2), ()) = _
    have h1 : upsertNothing (∅ : Store (Int × Int) Unit) ((m, 1), ())
        = (∅ : Store (Int × Int) Unit).insert (m, 1) () := by
      unfold upsertNothing
      rw [if_neg Finmap.not_mem_empty]
    have h2 : upsertNothing ((∅ : Store (Int × Int) Unit).insert (m, 1) ()) ((m, 2), ())
        = ((∅ : Store (Int × Int) Unit).insert (m, 1) ()).insert (m, 2) () := by
      unfold upsertNothing
      rw [if_neg]
      intro hmem
      rcases Finmap.mem_insert.mp hmem with h | h
      · have h21 : (2 : Int) = 1 := congrArg Prod.snd h
        exact absurd h21 (by decide)
      · exact Finmap.not_mem_empty h
    have h3 : upsertNothing (((∅ : Store (Int × Int) Unit).insert (m, 1) ()).insert
          (m, 2) ()) ((m, 2), ())
        = ((∅ : Store (Int × Int) Unit).insert (m, 1) ()).insert (m, 2) () := by
      unfold upsertNothing
      rw [if_pos (Finmap.mem_insert.mpr (Or.inl rfl))]
    rw [h1, h2, h3]
  have hne12 : ((m, 1) : Int × Int) ≠ (m, 2) := by
    intro h
    have h12 : (1 : Int) = 2 := congrArg Prod.snd h
    exact absurd h12 (by decide)
  refine ⟨?_, ?_, ?_, ?_⟩
  · refine ⟨{ original_language := r.original_language,
              original_title := r.original_title,
              overview := r.overview, popularity := r.popularity,
              release_date := dd, title := r.title,
              vote_average := r.vote_average, vote_count := r.vote_count }, ?_⟩
    simp [transform_movies, keepRecord, hid, hg, rowsOf, toMovieRow, hdd, mgRows]
  · rw [hT, Finmap.lookup_insert_of_ne _ hne12, Finmap.lookup_insert]
  · rw [hT, Finmap.lookup_insert]
  · intro p hp
    rw [hT] at hp
    rcases Finmap.mem_insert.mp hp with h | h
    · exact Or.inr h
    · rcases Finmap.mem_insert.mp h with h2 | h2
      · exact Or.inl h2
      · exact absurd h2 Finmap.not_mem_empty

theorem c6_witness :
    (∃ row, transform_movies [flatMovie] = some ([(7, row)], [(7, 1), (7, 2), (7, 2)]))
    ∧ (insert_on_conflict_update "movie_genres"
        ([((7 : Int), (1 : Int)), (7, 2), (7, 2)].map fun p => (p, ()))
        (∅ : Store (Int × Int) Unit)).lookup (7, 1) = some ()
    ∧ (insert_on_conflict_update "movie_genres"
        ([((7 : Int), (1 : Int)), (7, 2), (7, 2)].map fun p => (p, ()))
        (∅ : Store (Int × Int) Unit)).lookup (7, 2) = some ()
    ∧ ∀ p, p ∈ insert_on_conflict_update "movie_genres"
        ([((7 : Int), (1 : Int)), (7, 2), (7, 2)].map fun p => (p, ()))
        (∅ : Store (Int × Int) Unit) → p = (7, 1) ∨ p = (7, 2) :=
  c6_flattening flatMovie 7 rfl rfl rfl

/-- C7: a record whose identifier or genre-reference list is missing is
dropped by the normalizer — if every record of a page is such, the
primary relation comes out empty — and an identifier that only ever
occurs on records lacking the genre-reference list is absent from the
movies table after the load whenever it was absent before. -/
theorem c7_referential_filtering (results : List RawMovie)
    (mv : List (Int × MovieRow)) (mg : List (Int × Int)) (i : Int)
    (s : Store Int MovieRow)
    (ht : transform_movies results = some (mv, mg))
    (hs : s.lookup i = none)
    (hdrop : ∀ r ∈ results, r.id = some i → r.genre_ids = none) :
    ((∀ r ∈ results, r.id = none ∨ r.genre_ids = none) → mv = [])
    ∧ (insert_on_conflict_update "movies" mv s).lookup i = none := by
  have hrows : rowsOf (results.filter keepRecord) = some mv := by
    unfold transform_movies at ht
    by_cases hres : results.isEmpty = true
    · rw [if_pos hres] at ht
      exact absurd ht (by simp)
    · rw [if_neg hres] at ht
      cases hr : rowsOf (results.filter keepRecord) with
      | none =>
        rw [hr] at ht
        exact Option.noConfusion ht
      | some ms =>
        rw [hr] at ht
        have hpair : (ms, (results.filter keepRecord).flatMap mgRows) = (mv, mg) :=
          Option.some.inj ht
        exact congrArg some (Prod.ext_iff.mp hpair).1
  constructor
  · intro hall
    have hfe : results.filter keepRecord = [] := by
      apply filter_keep_nil
      intro x hx
      rcases hall x hx with h | h
      · simp [keepRecord, h]
      · simp [keepRecord, h]
    rw [hfe] at hrows
    have : ([] : List (Int × MovieRow)) = mv := Option.some.inj hrows
    exact this.symm
  · have hlw : lastWrite i mv = none := by
      cases hl : lastWrite i mv with
      | none => rfl
      | some v =>
        have hmem := lastWrite_mem i v mv hl
        obtain ⟨r2, hr2f, hr2t⟩ := rowsOf_mem _ mv hrows (i, v) hmem
        have hid2 := toMovieRow_id r2 i v hr2t
        have hr2in := List.mem_of_mem_filter hr2f
        have hkeep := List.of_mem_filter hr2f
        have hgid := hdrop r2 hr2in hid2
        simp [keepRecord, hgid] at hkeep
    have hmt : insert_on_conflict_update "movies" mv s = loadUpdate mv s := by
      unfold insert_on_conflict_update
      rw [if_neg (by decide)]
    rw [hmt, lookup_loadUpdate_none mv s i hlw, hs]

theorem c7_witness :
    ((∀ r ∈ [noGidMovie], r.id = none ∨ r.genre_ids = none) → ([] : List (Int × MovieRow)) = [])
    ∧ (insert_on_conflict_update "movies" ([] : List (Int × MovieRow))
        (∅ : Store Int MovieRow)).lookup 5 = none :=
  c7_referential_filtering [noGidMovie] [] [] 5 ∅ rfl rfl
    (fun r hr _ => by rw [List.mem_singleton.mp hr]; rfl)

/-- C8 counterexample: a batch holding one well-formed record and one
record with an unparseable release-date string fails the whole
transformation, although the well-formed record alone transforms fine —
the bad record does make the rest of the batch fail persistence,
against the claim. -/
theorem c8_counterexample :
    (transform_movies [sampleMovie]).isSome = true
    ∧ transform_movies [sampleMovie, badDateMovie] = none :=
  ⟨rfl, rfl⟩

/-- C8 as amended: the normalizer treats the two cases differently
instead of one consistent policy — a surviving record whose release
date is absent gets a null date and is kept, while a surviving record
whose release date is an unparseable string makes the whole batch
transformation fail (so the rest of the batch fails persistence too). -/
theorem c8_date_handling :
    (∀ r i, r.id = some i → r.release_date = none →
      ∃ row, toMovieRow r = some (i, row) ∧ row.release_date = none)
    ∧ (∀ results r, r ∈ results → keepRecord r = true →
      toDatetime r.release_date = none → transform_movies results = none) := by
  constructor
  · intro r i hid hrd
    refine ⟨{ original_language := r.original_language,
              original_title := r.original_title,
              overview := r.overview, popularity := r.popularity,
              release_date := none, title := r.title,
              vote_average := r.vote_average, vote_count := r.vote_count }, ?_, rfl⟩
    unfold toMovieRow
    rw [hid, hrd]
    rfl
  · intro results r hr hkeep hbad
    have hmem : r ∈ results.filter keepRecord := List.mem_filter.mpr ⟨hr, hkeep⟩
    have hrow : toMovieRow r = none := by
      unfold toMovieRow
      rw [hbad]
      cases r.id <;> rfl
    have hnone := rowsOf_none_of_mem _ r hmem hrow
    have hne : results.isEmpty = false := by
      cases results with
      | nil => exact absurd hr (by simp)
      | cons a t => rfl
    simp [transform_movies, hne, hnone]

/-- C9: evaluation of the code at the failing input — a genre record
with a null identifier passes through `transform_genre` untouched, so
the null-id record does appear in the returned Genre relation. -/
theorem c9_null_id_kept :
    transform_genre [nullIdGenre] = some [nullIdGenre] ∧ nullIdGenre.id = none :=
  ⟨rfl, rfl⟩

theorem c10_witness :
    extract_movies (.resp 200 { results := none, total_pages := some 3 })
      = some (none, (some 3 : Option Nat).getD 1)
    ∧ extract_genre (.resp 200 { genres := none }) = none
    ∧ truthy (none : Option (List RawMovie)) = truthy (some ([] : List RawMovie))
    ∧ loopStep envNoField initState = loopStep envEmptyField initState :=
  c10_missing_field 200 { results := none, total_pages := some 3 } { genres := none }
    envNoField envEmptyField initState rfl rfl rfl rfl rfl

end Etl
